import Mathlib

/-!
Verification development for the ns-3 NR ProSe module
(relay selection algorithms, ProSe helper, and the direct-link
establishment procedure).

The definitions below are shallow embeddings of the C++ sources:

* `SelectRelayFirstAvailable`, `SelectRelayRandom`, `SelectRelayMaxRsrp`
  embed the three `SelectRelay` implementations of
  `model/nr-sl-ue-prose-relay-selection-algorithm.cc`.
* `EstablishL3UeToNetworkRelayConnection` and `StartDiscovery` embed the
  corresponding member functions of `helper/nr-sl-prose-helper.cc`.
* `ProseState.addDirectLinkConnection` and the `LinkMachine` definitions
  model the `NrSlUeProse` / `NrSlUeProseDirectLink` classes, whose
  sources are not part of this tree; they are modelled from the module
  design documentation (direct link establishment procedure, T5080
  retransmission timer, always-accept target policy).

Machine integers (`uint32_t`) are modelled as `Nat` (no arithmetic that
could overflow occurs in the embedded code), and the `double` RSRP
values as `ℚ` (only order comparisons occur).
-/

namespace NrProse

/-- Modelled from the spec: the `NrSlUeProse::RelayInfo` record declared in
`nr-sl-ue-prose.h`, a file that is not part of this source tree.  The spec
describes it as `{relayId, serviceCode, signalStrength, eligible}`; the
relay-selection header documents that a default-constructed ("uninitialized")
`RelayInfo` is the "no selection" return value of `SelectRelay`. -/
structure RelayInfo where
  l2Id : Nat
  relayCode : Nat
  rsrp : ℚ
  eligible : Bool
deriving Repr, DecidableEq

/-- Modelled from the spec: the value of a default-constructed
`NrSlUeProse::RelayInfo` (the "no selection" sentinel).  The numeric ids are
zero and the candidate is not eligible; the RSRP field carries a sentinel
value below every measured signal strength so that any realistically
measured candidate compares above it. -/
def defaultRelayInfo : RelayInfo :=
  { l2Id := 0, relayCode := 0, rsrp := -1000000000, eligible := false }

/-- Embeds `NrSlUeProseRelaySelectionAlgorithmFirstAvailable::SelectRelay`:
return the first discovered relay, or a default-constructed `RelayInfo`
when the list is empty. -/
def SelectRelayFirstAvailable (discoveredRelays : List RelayInfo) : RelayInfo :=
  match discoveredRelays with
  | [] => defaultRelayInfo
  | c :: _ => c

/-- The loop of `NrSlUeProseRelaySelectionAlgorithmMaxRsrp::SelectRelay`:
`relay` is the running best; a candidate replaces it exactly when its RSRP
is strictly greater than the running best's RSRP and it is eligible. -/
def SelectRelayMaxRsrpAux : RelayInfo → List RelayInfo → RelayInfo
  | relay, [] => relay
  | relay, relayIt :: rest =>
    if relay.rsrp < relayIt.rsrp ∧ relayIt.eligible = true then
      SelectRelayMaxRsrpAux
        { l2Id := relayIt.l2Id, relayCode := relayIt.relayCode,
          rsrp := relayIt.rsrp, eligible := relayIt.eligible } rest
    else
      SelectRelayMaxRsrpAux relay rest

/-- Embeds `NrSlUeProseRelaySelectionAlgorithmMaxRsrp::SelectRelay`:
fold the candidate list starting from a default-constructed `RelayInfo`. -/
def SelectRelayMaxRsrp (discoveredRelays : List RelayInfo) : RelayInfo :=
  SelectRelayMaxRsrpAux defaultRelayInfo discoveredRelays

/-- Modelled from the spec: the endpoint's private random source used by
`NrSlUeProseRelaySelectionAlgorithmRandom` (ns-3's `UniformRandomVariable`,
an external collaborator: a per-endpoint uniform generator, seedable for
reproducibility).  The stream of raw draws is `seq`; `pos` is the position
of the next draw.  `AssignStreams` (stream seeding) fixes `seq` and `pos`. -/
structure RngState where
  seq : Nat → Nat
  pos : Nat

/-- Modelled from the spec: `UniformRandomVariable::GetInteger (lo, hi)`
draws the next value of the stream, mapped into `[lo, hi]`, and advances
the stream position. -/
def RngState.getInteger (s : RngState) (lo hi : Nat) : Nat × RngState :=
  (lo + s.seq s.pos % (hi - lo + 1), { seq := s.seq, pos := s.pos + 1 })

/-- Embeds `NrSlUeProseRelaySelectionAlgorithmRandom::SelectRelay`: on a
non-empty list draw `i = GetInteger (0, size - 1)` from the endpoint's
private stream and return the `i`-th candidate; on the empty list return a
default-constructed `RelayInfo`.  The updated stream state is returned
alongside (in the C++ it lives in the member `m_rand`). -/
def SelectRelayRandom (s : RngState) (discoveredRelays : List RelayInfo) :
    RelayInfo × RngState :=
  match discoveredRelays with
  | [] => (defaultRelayInfo, s)
  | c :: rest =>
    let (i, s') := s.getInteger 0 ((c :: rest).length - 1)
    ((c :: rest).getD i defaultRelayInfo, s')

/-- Arguments of one scheduled `NrSlUeProse::AddDirectLinkConnection` call
(as scheduled by the helper): own L2 id, own IP address, peer L2 id,
initiating-UE flag and relay service code.  IPv4 addresses are modelled
as `Nat`. -/
structure DirectLinkCall where
  selfL2Id : Nat
  selfIp : Nat
  peerL2Id : Nat
  isInitiating : Bool
  relayServiceCode : Nat
deriving Repr, DecidableEq

/-- Observable effects of `NrSlProseHelper::EstablishL3UeToNetworkRelayConnection`,
in program order: the state changes performed synchronously on the two ProSe
layers, and the `AddDirectLinkConnection` calls scheduled for time `t`. -/
inductive HelperEffect : Type
  | setImsi (l2Id : Nat)
  | setL2Id (l2Id : Nat)
  | scheduleAddLink (t : Nat) (call : DirectLinkCall)
deriving Repr, DecidableEq

/-- Embeds `NrSlProseHelper::EstablishL3UeToNetworkRelayConnection`
(`helper/nr-sl-prose-helper.cc`): if the relay service code is `≤ 0` the
function hits `NS_FATAL_ERROR` (a fatal abort, modelled as `Except.error`)
before performing any state change or scheduling anything; otherwise it
configures both ProSe layers and schedules one `AddDirectLinkConnection`
call on the remote UE (initiating) and one on the relay UE (target),
both at time `t` and both carrying the relay service code. -/
def EstablishL3UeToNetworkRelayConnection (t : Nat)
    (remoteUeL2Id remoteUeIp relayUeL2Id relayUeIp relayServiceCode : Nat) :
    Except String (List HelperEffect) :=
  if relayServiceCode ≤ 0 then
    Except.error "InvalidServiceCode"
  else
    Except.ok
      [HelperEffect.setImsi remoteUeL2Id,
       HelperEffect.setImsi relayUeL2Id,
       HelperEffect.setL2Id remoteUeL2Id,
       HelperEffect.setL2Id relayUeL2Id,
       HelperEffect.scheduleAddLink t
         { selfL2Id := remoteUeL2Id, selfIp := remoteUeIp,
           peerL2Id := relayUeL2Id, isInitiating := true,
           relayServiceCode := relayServiceCode },
       HelperEffect.scheduleAddLink t
         { selfL2Id := relayUeL2Id, selfIp := relayUeIp,
           peerL2Id := remoteUeL2Id, isInitiating := false,
           relayServiceCode := relayServiceCode }]

/-- Embeds `NrSlProseHelper::StartDiscovery` (`helper/nr-sl-prose-helper.cc`):
it walks `appCodes` and `dstL2Ids` in lockstep, calling `StartDiscoveryApp`
with the i-th application code and the i-th destination L2 id.  The C++
dereferences the `dstL2Ids` iterator without comparing it against `end()`,
so running out of destination ids is undefined behaviour, modelled as
`none`.  The result is the list of `(appCode, dstL2Id)` pairs passed to
`StartDiscoveryApp`, one per started discovery application, in order. -/
def StartDiscovery : List Nat → List Nat → Option (List (Nat × Nat))
  | [], _ => some []
  | _ :: _, [] => none
  | a :: as, d :: ds =>
    match StartDiscovery as ds with
    | some calls => some ((a, d) :: calls)
    | none => none

/-- The states of a direct link instance: `Idle`, then (initiating side)
`AwaitingResponse` once the Establishment-Request is sent, and
`Established` once the link is set up. -/
inductive LinkState : Type
  | Idle
  | AwaitingResponse
  | Established
deriving Repr, DecidableEq

/-- Numeric rank of a link state, for stating monotonicity of transitions. -/
def LinkState.rank : LinkState → Nat
  | LinkState.Idle => 0
  | LinkState.AwaitingResponse => 1
  | LinkState.Established => 2

/-- Modelled from the spec: the per-link record kept by the ProSe layer
(`NrSlUeProse`, not under this source tree) for each peer: the peer's L2
id, the local address given at creation, the fixed role, the relay service
code and the link state. -/
structure DirectLink where
  peerId : Nat
  localAddress : Nat
  isInitiating : Bool
  relayServiceCode : Nat
  state : LinkState
deriving Repr, DecidableEq

/-- Modelled from the spec: the per-endpoint ProSe controller state —
the map of active direct links, keyed by peer L2 id.  The association
list never holds two entries with the same key because insertion is
guarded by a lookup. -/
structure ProseState where
  links : List (Nat × DirectLink)
deriving Repr, DecidableEq

/-- Result signalled by `AddDirectLinkConnection`. -/
inductive AddLinkResult : Type
  | ok
  | alreadyExists
deriving Repr, DecidableEq

/-- Modelled from the spec: `NrSlUeProse::AddDirectLinkConnection`
(source not under this tree): creates a `DirectLink` for `peerId` if one
does not already exist; if `isInitiating` it immediately calls `start()`
on the new link's state machine (taking it to `AwaitingResponse`);
signals `AlreadyExists` and changes nothing if a link to that peer
already exists. -/
def ProseState.addDirectLinkConnection (st : ProseState)
    (peerId localAddress : Nat) (isInitiating : Bool) (relayServiceCode : Nat) :
    AddLinkResult × ProseState :=
  match st.links.lookup peerId with
  | some _ => (AddLinkResult.alreadyExists, st)
  | none =>
    let link : DirectLink :=
      { peerId := peerId, localAddress := localAddress,
        isInitiating := isInitiating, relayServiceCode := relayServiceCode,
        state := if isInitiating then LinkState.AwaitingResponse else LinkState.Idle }
    (AddLinkResult.ok, { links := (peerId, link) :: st.links })

/-- The payload of a PROSE DIRECT LINK ESTABLISHMENT REQUEST message:
`{localId, peerId, localAddress, relayServiceCode}`. -/
structure Pc5Message where
  localId : Nat
  peerId : Nat
  localAddress : Nat
  relayServiceCode : Nat
deriving Repr, DecidableEq

/-- Modelled from the spec: the initiating side of a direct link state
machine (`NrSlUeProseDirectLink`, not under this tree): its state, the
Establishment-Request of the link, the T5080 retransmission timer (armed
flag and absolute expiry time), the peer address recorded on Accept, the
log of Establishment-Requests sent so far (in order) and the current
simulated time. -/
structure LinkMachine where
  state : LinkState
  request : Pc5Message
  timerArmed : Bool
  timerExpiry : Nat
  peerAddress : Option Nat
  sent : List Pc5Message
  now : Nat
deriving Repr, DecidableEq

/-- Modelled from the spec: `start()` on the initiating side: state
`Idle → AwaitingResponse`, send the Establishment-Request, arm T5080. -/
def StartLink (req : Pc5Message) (t5080 startTime : Nat) : LinkMachine :=
  { state := LinkState.AwaitingResponse, request := req, timerArmed := true,
    timerExpiry := startTime + t5080, peerAddress := none,
    sent := [req], now := startTime }

/-- Modelled from the spec: the T5080 expiry callback (which only runs
while the timer is armed, i.e. in `AwaitingResponse`): resend the
identical Establishment-Request and rearm T5080. -/
def FireT5080 (t5080 : Nat) (m : LinkMachine) : LinkMachine :=
  { m with sent := m.sent ++ [m.request], timerExpiry := m.timerExpiry + t5080 }

/-- Advance the simulated clock to time `t`, firing the T5080 timer (and
its rearmed successors) for every expiry not later than `t` while the
timer is armed.  A cancelled (disarmed) timer never fires. -/
def AdvanceTo (t5080 : Nat) (m : LinkMachine) (t : Nat) : LinkMachine :=
  if h : 0 < t5080 ∧ m.timerArmed = true ∧ m.timerExpiry ≤ t then
    AdvanceTo t5080 (FireT5080 t5080 m) t
  else
    { m with now := t }
termination_by t + 1 - m.timerExpiry
decreasing_by simp only [FireT5080]; omega

/-- Modelled from the spec: receiving Accept while `AwaitingResponse`
cancels T5080, records the peer address and establishes the link; in any
other state the message has no effect. -/
def RecvAccept (m : LinkMachine) (peerAddr : Nat) : LinkMachine :=
  if m.state = LinkState.AwaitingResponse then
    { m with state := LinkState.Established, timerArmed := false,
             peerAddress := some peerAddr }
  else m

/-- Modelled from the spec: receiving Reject while `AwaitingResponse`
cancels T5080 and returns the link to `Idle` (link creation fails); in
any other state the message has no effect. -/
def RecvReject (m : LinkMachine) : LinkMachine :=
  if m.state = LinkState.AwaitingResponse then
    { m with state := LinkState.Idle, timerArmed := false }
  else m

/-- The events an initiating-side link instance can observe: a T5080
expiry, an Establishment-Accept, or an Establishment-Reject. -/
inductive LinkEvent : Type
  | timerExpiry
  | accept (peerAddress : Nat)
  | reject
deriving Repr, DecidableEq

/-- One step of the initiating-side state machine on an observed event. -/
def StepEvent (t5080 : Nat) (m : LinkMachine) : LinkEvent → LinkMachine
  | LinkEvent.timerExpiry =>
    if m.timerArmed = true then FireT5080 t5080 m else m
  | LinkEvent.accept peerAddr => RecvAccept m peerAddr
  | LinkEvent.reject => RecvReject m

/-- Modelled from the spec: the target side processing an
Establishment-Request while `Idle`: validate that a link for the peer
pair does not already exist; if acceptable send Accept and establish,
otherwise send Reject and stay.  Returns the new machine state and
whether Accept was sent. -/
def TargetRecvRequest (m : LinkMachine) (linkAlreadyExists : Bool) :
    LinkMachine × Bool :=
  if m.state = LinkState.Idle ∧ linkAlreadyExists = false then
    ({ m with state := LinkState.Established }, true)
  else
    (m, false)

/-- Run the initiating-side state machine over a sequence of observed
events, in order. -/
def RunEvents (t5080 : Nat) (m : LinkMachine) (es : List LinkEvent) : LinkMachine :=
  es.foldl (StepEvent t5080) m

/-- Structural characterisation of the `MaxRsrp` selection loop: starting
from any running best `best`, the loop either keeps `best` (and then no
eligible candidate beats `best`), or returns the earliest eligible candidate
attaining the maximal RSRP among those strictly above `best.rsrp`. -/
theorem selectRelayMaxRsrpAux_spec (l : List RelayInfo) :
    ∀ best : RelayInfo,
      (SelectRelayMaxRsrpAux best l = best
        ∧ ∀ c ∈ l, c.eligible = true → c.rsrp ≤ best.rsrp)
      ∨ (∃ i : Fin l.length,
          SelectRelayMaxRsrpAux best l = l.get i
          ∧ (l.get i).eligible = true
          ∧ best.rsrp < (l.get i).rsrp
          ∧ (∀ c ∈ l, c.eligible = true → c.rsrp ≤ (l.get i).rsrp)
          ∧ (∀ j : Fin l.length, j < i → (l.get j).eligible = true →
              (l.get j).rsrp < (l.get i).rsrp)) := by
  induction l with
  | nil =>
    intro best
    left
    exact ⟨rfl, by simp⟩
  | cons c rest ih =>
    intro best
    by_cases h : best.rsrp < c.rsrp ∧ c.eligible = true
    · have hstep : SelectRelayMaxRsrpAux best (c :: rest) =
          SelectRelayMaxRsrpAux c rest := by
        simp only [SelectRelayMaxRsrpAux, if_pos h]
      rcases ih c with ⟨heq, hbound⟩ | ⟨i', hget, helig, hlt, hbound, hearly⟩
      · right
        refine ⟨⟨0, Nat.succ_pos _⟩, ?_, h.2, h.1, ?_, ?_⟩
        · rw [hstep, heq]; rfl
        · intro d hd hde
          rcases List.mem_cons.mp hd with hd0 | hdr
          · subst hd0; exact le_refl _
          · exact hbound d hdr hde
        · intro j hj _
          exact absurd hj (by simp [Fin.lt_def])
      · right
        refine ⟨i'.succ, ?_, ?_, ?_, ?_, ?_⟩
        · rw [hstep, hget]; rfl
        · simpa using helig
        · calc best.rsrp < c.rsrp := h.1
            _ < (rest.get i').rsrp := hlt
            _ = _ := by simp
        · intro d hd hde
          rcases List.mem_cons.mp hd with hd0 | hdr
          · subst hd0
            refine le_of_lt ?_
            calc d.rsrp < (rest.get i').rsrp := hlt
              _ = _ := by simp
          · calc d.rsrp ≤ (rest.get i').rsrp := hbound d hdr hde
              _ = _ := by simp
        · intro j hj hje
          rcases j with ⟨jv, hjlt⟩
          cases jv with
          | zero =>
            calc ((c :: rest).get ⟨0, hjlt⟩).rsrp = c.rsrp := rfl
              _ < (rest.get i').rsrp := hlt
              _ = ((c :: rest).get i'.succ).rsrp := by simp
          | succ jv' =>
            have hjv : jv' < rest.length := Nat.lt_of_succ_lt_succ hjlt
            have hji : (⟨jv', hjv⟩ : Fin rest.length) < i' := by
              simpa [Fin.lt_def] using hj
            have := hearly ⟨jv', hjv⟩ hji (by simpa using hje)
            simpa using this
    · have hstep : SelectRelayMaxRsrpAux best (c :: rest) =
          SelectRelayMaxRsrpAux best rest := by
        simp only [SelectRelayMaxRsrpAux, if_neg h]
      have hcle : c.eligible = true → c.rsrp ≤ best.rsrp := by
        intro hce
        by_contra hcon
        exact h ⟨lt_of_not_le hcon, hce⟩
      rcases ih best with ⟨heq, hbound⟩ | ⟨i', hget, helig, hlt, hbound, hearly⟩
      · left
        refine ⟨hstep.trans heq, ?_⟩
        intro d hd hde
        rcases List.mem_cons.mp hd with hd0 | hdr
        · subst hd0; exact hcle hde
        · exact hbound d hdr hde
      · right
        refine ⟨i'.succ, ?_, ?_, ?_, ?_, ?_⟩
        · rw [hstep, hget]; rfl
        · simpa using helig
        · calc best.rsrp < (rest.get i').rsrp := hlt
            _ = _ := by simp
        · intro d hd hde
          rcases List.mem_cons.mp hd with hd0 | hdr
          · subst hd0
            refine le_of_lt ?_
            calc d.rsrp ≤ best.rsrp := hcle hde
              _ < (rest.get i').rsrp := hlt
              _ = _ := by simp
          · calc d.rsrp ≤ (rest.get i').rsrp := hbound d hdr hde
              _ = _ := by simp
        · intro j hj hje
          rcases j with ⟨jv, hjlt⟩
          cases jv with
          | zero =>
            calc ((c :: rest).get ⟨0, hjlt⟩).rsrp = c.rsrp := rfl
              _ ≤ best.rsrp := hcle (by simpa using hje)
              _ < (rest.get i').rsrp := hlt
              _ = ((c :: rest).get i'.succ).rsrp := by simp
          | succ jv' =>
            have hjv : jv' < rest.length := Nat.lt_of_succ_lt_succ hjlt
            have hji : (⟨jv', hjv⟩ : Fin rest.length) < i' := by
              simpa [Fin.lt_def] using hj
            have := hearly ⟨jv', hjv⟩ hji (by simpa using hje)
            simpa using this

/-- Advancing the clock never changes the link state, the stored request,
the armed flag or the recorded peer address: firing T5080 only resends
and rearms. -/
theorem advanceTo_preserves (T : Nat) (m : LinkMachine) (t : Nat) :
    (AdvanceTo T m t).state = m.state
    ∧ (AdvanceTo T m t).request = m.request
    ∧ (AdvanceTo T m t).timerArmed = m.timerArmed
    ∧ (AdvanceTo T m t).peerAddress = m.peerAddress := by
  induction m, t using AdvanceTo.induct T with
  | case1 m t h ih =>
    rw [AdvanceTo, dif_pos h]
    simpa [FireT5080] using ih
  | case2 m t h =>
    rw [AdvanceTo, dif_neg h]
    exact ⟨rfl, rfl, rfl, rfl⟩

/-- A disarmed (cancelled) T5080 never fires: advancing the clock only
updates the current time. -/
theorem advanceTo_not_armed (T : Nat) (m : LinkMachine) (t : Nat)
    (h : m.timerArmed = false) :
    AdvanceTo T m t = { m with now := t } := by
  rw [AdvanceTo, dif_neg]
  simp [h]

/-- Retransmission accounting for an armed T5080: advancing the clock to
`t` appends one copy of the stored request per fired expiry; nothing is
sent when the first expiry lies beyond `t`. -/
theorem advanceTo_sent (T : Nat) (hT : 0 < T) (t : Nat) :
    ∀ m : LinkMachine, m.timerArmed = true →
      (m.timerExpiry ≤ t →
        (AdvanceTo T m t).sent
          = m.sent ++ List.replicate ((t - m.timerExpiry) / T + 1) m.request)
      ∧ (t < m.timerExpiry → (AdvanceTo T m t).sent = m.sent) := by
  intro m
  induction m, t using AdvanceTo.induct T with
  | case1 m t h ih =>
    intro harm
    refine ⟨?_, ?_⟩
    · intro hle
      rw [AdvanceTo, dif_pos h]
      rcases ih (by simp [FireT5080, harm]) with ⟨ih1, ih2⟩
      by_cases h2 : m.timerExpiry + T ≤ t
      · rw [ih1 (by simpa [FireT5080] using h2)]
        simp only [FireT5080]
        have hdiv : (t - m.timerExpiry) / T = (t - (m.timerExpiry + T)) / T + 1 := by
          have hsplit : t - m.timerExpiry = (t - (m.timerExpiry + T)) + T := by omega
          rw [hsplit, Nat.add_div_right _ hT]
        rw [hdiv]
        simp [List.replicate_succ, List.append_assoc]
      · rw [ih2 (by simp only [FireT5080]; omega)]
        simp only [FireT5080]
        have hdiv : (t - m.timerExpiry) / T = 0 := Nat.div_eq_of_lt (by omega)
        rw [hdiv]
        simp
    · intro hlt
      exact absurd h.2.2 (by omega)
  | case2 m t h =>
    intro harm
    have hnot : ¬ m.timerExpiry ≤ t := fun hle => h ⟨hT, harm, hle⟩
    refine ⟨fun hle => absurd hle hnot, fun _ => ?_⟩
    rw [AdvanceTo, dif_neg h]

/-- C8: for an initiating-side link started at `startTime` that receives
no Accept or Reject up to time `t`, the Establishment-Requests sent by
time `t` are exactly one per elapsed T5080 interval (the initial send
plus `(t - startTime) / T5080` retransmissions), all carrying the
identical payload, and the link is still awaiting a response; and once an
Accept is received the link is established, the timer is cancelled, and
no further retransmission occurs however far the clock advances
afterwards. -/
theorem t5080_retransmission_spec (T startTime t tAfter peerAddr : Nat)
    (req : Pc5Message) (hT : 0 < T) :
    ((AdvanceTo T (StartLink req T startTime) t).sent
        = List.replicate ((t - startTime) / T + 1) req
      ∧ (AdvanceTo T (StartLink req T startTime) t).state
        = LinkState.AwaitingResponse)
    ∧ ((RecvAccept (AdvanceTo T (StartLink req T startTime) t) peerAddr).state
        = LinkState.Established
      ∧ (AdvanceTo T
            (RecvAccept (AdvanceTo T (StartLink req T startTime) t) peerAddr)
            tAfter).sent
        = (AdvanceTo T (StartLink req T startTime) t).sent) := by
  have hstate : (AdvanceTo T (StartLink req T startTime) t).state
      = LinkState.AwaitingResponse :=
    (advanceTo_preserves T (StartLink req T startTime) t).1
  have hsent : (AdvanceTo T (StartLink req T startTime) t).sent
      = List.replicate ((t - startTime) / T + 1) req := by
    rcases advanceTo_sent T hT t (StartLink req T startTime) rfl with ⟨h1, h2⟩
    by_cases hcase : startTime + T ≤ t
    · rw [h1 hcase]
      have hdiv : (t - startTime) / T = (t - (startTime + T)) / T + 1 := by
        have hsplit : t - startTime = (t - (startTime + T)) + T := by omega
        rw [hsplit, Nat.add_div_right _ hT]
      rw [hdiv]
      simp [StartLink, List.replicate_succ]
    · rw [h2 (by simp [StartLink]; omega)]
      have hdiv : (t - startTime) / T = 0 := Nat.div_eq_of_lt (by omega)
      rw [hdiv]
      simp [StartLink]
  refine ⟨⟨hsent, hstate⟩, ?_, ?_⟩
  · simp [RecvAccept, hstate]
  · have hdisarmed :
        (RecvAccept (AdvanceTo T (StartLink req T startTime) t) peerAddr).timerArmed
          = false := by
      simp [RecvAccept, hstate]
    rw [advanceTo_not_armed T _ tAfter hdisarmed]
    simp [RecvAccept, hstate]

/-- C8 witness: with T5080 = 2 s, a link started at time 0 that is still
unanswered at time 5 has sent the identical request three times (initial
send plus one retransmission per elapsed interval); after the Accept it
is established and advancing the clock to time 100 sends nothing more. -/
theorem t5080_retransmission_spec_witness :
    ((AdvanceTo 2 (StartLink ⟨1, 2, 3, 4⟩ 2 0) 5).sent
        = List.replicate 3 (⟨1, 2, 3, 4⟩ : Pc5Message)
      ∧ (AdvanceTo 2 (StartLink ⟨1, 2, 3, 4⟩ 2 0) 5).state
        = LinkState.AwaitingResponse)
    ∧ ((RecvAccept (AdvanceTo 2 (StartLink ⟨1, 2, 3, 4⟩ 2 0) 5) 9).state
        = LinkState.Established
      ∧ (AdvanceTo 2 (RecvAccept (AdvanceTo 2 (StartLink ⟨1, 2, 3, 4⟩ 2 0) 5) 9)
            100).sent
        = (AdvanceTo 2 (StartLink ⟨1, 2, 3, 4⟩ 2 0) 5).sent) := by
  have h := t5080_retransmission_spec 2 0 5 100 9 ⟨1, 2, 3, 4⟩ (by decide)
  simpa using h

/-- C9 counterexample: receiving Reject while `AwaitingResponse` returns
the link to `Idle`, an earlier state — the transition the spec itself
defines for Reject is not monotonic. -/
theorem linkState_reject_counterexample :
    (StartLink ⟨1, 2, 3, 4⟩ 8 0).state = LinkState.AwaitingResponse
    ∧ (StepEvent 8 (StartLink ⟨1, 2, 3, 4⟩ 8 0) LinkEvent.reject).state
        = LinkState.Idle
    ∧ LinkState.rank LinkState.Idle < LinkState.rank LinkState.AwaitingResponse := by
  exact ⟨rfl, rfl, by decide⟩

/-- C9 (amended): once a link is `Established` the state is terminal —
every event (timer expiry, Accept, Reject) and every further event
sequence leaves it `Established`; state transitions never decrease in
rank on any event except Reject (which returns an `AwaitingResponse`
link to `Idle` and cannot arise with the implemented always-accept
target policy), so every run without a Reject is monotonic; and the
target side only ever steps from `Idle` to `Established`. -/
theorem linkState_monotonic_spec :
    (∀ (T : Nat) (m : LinkMachine) (e : LinkEvent),
        m.state = LinkState.Established →
        (StepEvent T m e).state = LinkState.Established)
    ∧ (∀ (T : Nat) (m : LinkMachine) (es : List LinkEvent),
        m.state = LinkState.Established →
        (RunEvents T m es).state = LinkState.Established)
    ∧ (∀ (T : Nat) (m : LinkMachine) (e : LinkEvent),
        e ≠ LinkEvent.reject →
        LinkState.rank m.state ≤ LinkState.rank (StepEvent T m e).state)
    ∧ (∀ (T : Nat) (m : LinkMachine) (es : List LinkEvent),
        (∀ e ∈ es, e ≠ LinkEvent.reject) →
        LinkState.rank m.state ≤ LinkState.rank (RunEvents T m es).state)
    ∧ (∀ (m : LinkMachine) (b : Bool),
        LinkState.rank m.state ≤ LinkState.rank (TargetRecvRequest m b).1.state) := by
  have hstep : ∀ (T : Nat) (m : LinkMachine) (e : LinkEvent),
      m.state = LinkState.Established →
      (StepEvent T m e).state = LinkState.Established := by
    intro T m e hm
    cases e with
    | timerExpiry =>
      by_cases harm : m.timerArmed = true
      · simp [StepEvent, harm, FireT5080, hm]
      · simp [StepEvent, harm, hm]
    | accept a => simp [StepEvent, RecvAccept, hm]
    | reject => simp [StepEvent, RecvReject, hm]
  have hrun : ∀ (T : Nat) (es : List LinkEvent) (m : LinkMachine),
      m.state = LinkState.Established →
      (RunEvents T m es).state = LinkState.Established := by
    intro T es
    induction es with
    | nil => intro m hm; exact hm
    | cons e rest ih =>
      intro m hm
      exact ih (StepEvent T m e) (hstep T m e hm)
  have hmono : ∀ (T : Nat) (m : LinkMachine) (e : LinkEvent),
      e ≠ LinkEvent.reject →
      LinkState.rank m.state ≤ LinkState.rank (StepEvent T m e).state := by
    intro T m e he
    cases e with
    | timerExpiry =>
      by_cases harm : m.timerArmed = true
      · simp [StepEvent, harm, FireT5080]
      · simp [StepEvent, harm]
    | accept a =>
      by_cases hm : m.state = LinkState.AwaitingResponse
      · simp [StepEvent, RecvAccept, hm, LinkState.rank]
      · simp [StepEvent, RecvAccept, hm]
    | reject => exact absurd rfl he
  refine ⟨hstep, fun T m es hm => hrun T es m hm, hmono, ?_, ?_⟩
  · intro T m es
    induction es generalizing m with
    | nil => intro _; exact le_refl _
    | cons e rest ih =>
      intro hno
      calc LinkState.rank m.state
          ≤ LinkState.rank (StepEvent T m e).state :=
            hmono T m e (hno e (List.mem_cons_self e rest))
        _ ≤ LinkState.rank (RunEvents T (StepEvent T m e) rest).state :=
            ih (StepEvent T m e) (fun x hx => hno x (List.mem_cons_of_mem e hx))
  · intro m b
    by_cases hm : m.state = LinkState.Idle ∧ b = false
    · simp [TargetRecvRequest, hm, hm.1, LinkState.rank]
    · simp [TargetRecvRequest, hm]

/-- C9 witness: a concrete `Established` link stays `Established` on a
Reject, and a run of timer and Accept events never decreases the state
rank. -/
theorem linkState_monotonic_spec_witness :
    (StepEvent 8 (RecvAccept (StartLink ⟨1, 2, 3, 4⟩ 8 0) 9) LinkEvent.reject).state
        = LinkState.Established
    ∧ LinkState.rank (StartLink ⟨1, 2, 3, 4⟩ 8 0).state
        ≤ LinkState.rank
            (RunEvents 8 (StartLink ⟨1, 2, 3, 4⟩ 8 0)
              [LinkEvent.timerExpiry, LinkEvent.accept 9]).state := by
  constructor
  · exact linkState_monotonic_spec.1 8 (RecvAccept (StartLink ⟨1, 2, 3, 4⟩ 8 0) 9)
      LinkEvent.reject rfl
  · exact linkState_monotonic_spec.2.2.2.1 8 (StartLink ⟨1, 2, 3, 4⟩ 8 0)
      [LinkEvent.timerExpiry, LinkEvent.accept 9] (by decide)

/-- C1 counterexample: an input list whose only candidate is eligible —
and hence is the eligible candidate of strictly greatest signal strength —
on which `MaxSignal` nevertheless returns the default-constructed
`RelayInfo` ("no selection"), because the candidate's RSRP does not
strictly exceed the RSRP field of the default-constructed running best. -/
theorem selectRelayMaxRsrp_counterexample :
    ({ l2Id := 7, relayCode := 5, rsrp := -1000000000, eligible := true }
        : RelayInfo).eligible = true
    ∧ SelectRelayMaxRsrp
        [{ l2Id := 7, relayCode := 5, rsrp := -1000000000, eligible := true }]
      = defaultRelayInfo
    ∧ defaultRelayInfo
      ≠ { l2Id := 7, relayCode := 5, rsrp := -1000000000, eligible := true } := by
  exact ⟨rfl, by decide, by decide⟩

/-- C1 (amended): `MaxSignal` returns the eligible candidate of strictly
greatest signal strength among those whose RSRP strictly exceeds the RSRP
of a default-constructed `RelayInfo`; ties keep the earliest-seen
incumbent; when no eligible candidate exceeds that sentinel it returns
the default-constructed `RelayInfo` ("no selection").  On the list
`[{id 1, rsrp -80, eligible}, {id 2, rsrp -70, eligible},
{id 3, rsrp -60, ineligible}]` it returns the candidate with id 2. -/
theorem selectRelayMaxRsrp_spec :
    (∀ l : List RelayInfo,
      ((∀ c ∈ l, c.eligible = true → c.rsrp ≤ defaultRelayInfo.rsrp) →
          SelectRelayMaxRsrp l = defaultRelayInfo)
      ∧ (∀ c ∈ l, c.eligible = true → defaultRelayInfo.rsrp < c.rsrp →
          ∃ i : Fin l.length,
            SelectRelayMaxRsrp l = l.get i
            ∧ (l.get i).eligible = true
            ∧ (∀ d ∈ l, d.eligible = true → d.rsrp ≤ (l.get i).rsrp)
            ∧ (∀ j : Fin l.length, j < i → (l.get j).eligible = true →
                (l.get j).rsrp < (l.get i).rsrp)))
    ∧ SelectRelayMaxRsrp
        [{ l2Id := 1, relayCode := 5, rsrp := -80, eligible := true },
         { l2Id := 2, relayCode := 5, rsrp := -70, eligible := true },
         { l2Id := 3, relayCode := 5, rsrp := -60, eligible := false }]
      = { l2Id := 2, relayCode := 5, rsrp := -70, eligible := true } := by
  refine ⟨?_, by decide⟩
  intro l
  constructor
  · intro hlow
    rcases selectRelayMaxRsrpAux_spec l defaultRelayInfo with
      ⟨heq, _⟩ | ⟨i, _, helig, hlt, _, _⟩
    · exact heq
    · exact absurd (hlow (l.get i) (l.get_mem i.1 i.2) helig) (not_le.mpr hlt)
  · intro c hc hce hcgt
    rcases selectRelayMaxRsrpAux_spec l defaultRelayInfo with
      ⟨_, hbound⟩ | ⟨i, hget, helig, _, hbound, hearly⟩
    · exact absurd (hbound c hc hce) (not_le.mpr hcgt)
    · exact ⟨i, hget, helig, hbound, hearly⟩

/-- C1 witness: on a list whose only eligible candidate does not exceed
the default sentinel the amended theorem yields "no selection". -/
theorem selectRelayMaxRsrp_spec_witness :
    SelectRelayMaxRsrp
        [{ l2Id := 7, relayCode := 5, rsrp := -1000000000, eligible := true }]
      = defaultRelayInfo :=
  (selectRelayMaxRsrp_spec.1
    [{ l2Id := 7, relayCode := 5, rsrp := -1000000000, eligible := true }]).1
    (by decide)

/-- C2: `MaxRsrp::SelectRelay` initialises its running best with a
default-constructed `RelayInfo` and replaces it only on strictly greater
RSRP, so an eligible candidate whose RSRP is not strictly greater than
the default-constructed RSRP field is never the selection, and when every
eligible candidate is of that kind the function returns the
default-constructed `RelayInfo` even though eligible candidates exist. -/
theorem selectRelayMaxRsrp_default_init_spec :
    ∀ (l : List RelayInfo) (c : RelayInfo),
      (c ∈ l → c.eligible = true → c.rsrp ≤ defaultRelayInfo.rsrp →
        SelectRelayMaxRsrp l ≠ c)
      ∧ ((∃ d ∈ l, d.eligible = true) →
        (∀ d ∈ l, d.eligible = true → d.rsrp ≤ defaultRelayInfo.rsrp) →
        SelectRelayMaxRsrp l = defaultRelayInfo) := by
  intro l c
  constructor
  · intro hc hce hcle
    show SelectRelayMaxRsrpAux defaultRelayInfo l ≠ c
    rcases selectRelayMaxRsrpAux_spec l defaultRelayInfo with
      ⟨heq, _⟩ | ⟨i, hget, _, hlt, _, _⟩
    · rw [heq]
      intro hdc
      have : defaultRelayInfo.eligible = true := by rw [hdc]; exact hce
      simp [defaultRelayInfo] at this
    · rw [hget]
      intro hic
      rw [hic] at hlt
      exact absurd hcle (not_le.mpr hlt)
  · intro _ hlow
    rcases selectRelayMaxRsrpAux_spec l defaultRelayInfo with
      ⟨heq, _⟩ | ⟨i, _, helig, hlt, _, _⟩
    · exact heq
    · exact absurd (hlow (l.get i) (l.get_mem i.1 i.2) helig) (not_le.mpr hlt)

/-- C2 witness: a concrete eligible candidate at the sentinel RSRP is not
selected; a singleton list of it yields the default `RelayInfo`. -/
theorem selectRelayMaxRsrp_default_init_spec_witness :
    SelectRelayMaxRsrp
        [{ l2Id := 9, relayCode := 5, rsrp := -1000000000, eligible := true }]
      ≠ { l2Id := 9, relayCode := 5, rsrp := -1000000000, eligible := true } :=
  (selectRelayMaxRsrp_default_init_spec
      [{ l2Id := 9, relayCode := 5, rsrp := -1000000000, eligible := true }]
      { l2Id := 9, relayCode := 5, rsrp := -1000000000, eligible := true }).1
    (by decide) rfl (by decide)

/-- C3 counterexample: "no selection" is not returned as an optional; all
three algorithms return a plain `RelayInfo`, and `FirstAvailable` (and
`Random`) return the very same default-constructed value both on the
empty list (no selection) and on a non-empty list whose first candidate
equals the default-constructed value (a selection), so a caller cannot
always decide whether a selection was made. -/
theorem noSelection_confusable_counterexample :
    SelectRelayFirstAvailable [defaultRelayInfo] = defaultRelayInfo
    ∧ SelectRelayFirstAvailable [] = defaultRelayInfo
    ∧ ([defaultRelayInfo] : List RelayInfo) ≠ []
    ∧ (SelectRelayRandom { seq := fun _ => 0, pos := 0 } [defaultRelayInfo]).1
        = defaultRelayInfo
    ∧ (SelectRelayRandom { seq := fun _ => 0, pos := 0 } []).1
        = defaultRelayInfo := by
  exact ⟨rfl, rfl, by simp, rfl, rfl⟩

/-- C3 (amended): all three strategies signal "no selection" by returning
a default-constructed `RelayInfo`, not an optional.  For `MaxSignal` the
sentinel is unambiguous: the result is the default value exactly when no
eligible candidate lies above the sentinel RSRP (a selected candidate is
eligible, the sentinel is not).  For `FirstAvailable` the sentinel is
only distinguishable when no candidate equals the default-constructed
value: under that proviso the result equals the sentinel exactly when the
input list is empty. -/
theorem noSelection_sentinel_spec :
    (∀ l : List RelayInfo, (∀ c ∈ l, c ≠ defaultRelayInfo) →
        (SelectRelayFirstAvailable l = defaultRelayInfo ↔ l = []))
    ∧ (∀ l : List RelayInfo,
        SelectRelayMaxRsrp l = defaultRelayInfo ↔
          ∀ c ∈ l, c.eligible = true → c.rsrp ≤ defaultRelayInfo.rsrp) := by
  constructor
  · intro l hne
    cases l with
    | nil => simp [SelectRelayFirstAvailable]
    | cons c rest =>
      simp only [SelectRelayFirstAvailable]
      constructor
      · intro hc
        exact absurd hc (hne c (List.mem_cons_self c rest))
      · intro hnil
        exact absurd hnil (List.cons_ne_nil c rest)
  · intro l
    constructor
    · intro hdef
      rw [show SelectRelayMaxRsrp l = SelectRelayMaxRsrpAux defaultRelayInfo l
        from rfl] at hdef
      rcases selectRelayMaxRsrpAux_spec l defaultRelayInfo with
        ⟨_, hbound⟩ | ⟨i, hget, _, hlt, _, _⟩
      · exact hbound
      · rw [hdef] at hget
        rw [← hget] at hlt
        exact absurd hlt (lt_irrefl _)
    · intro hlow
      rcases selectRelayMaxRsrpAux_spec l defaultRelayInfo with
        ⟨heq, _⟩ | ⟨i, _, helig, hlt, _, _⟩
      · exact heq
      · exact absurd (hlow (l.get i) (l.get_mem i.1 i.2) helig) (not_le.mpr hlt)

/-- C3 witness: on a list of candidates all different from the default
value, `FirstAvailable` returns the sentinel exactly when the list is
empty; the `MaxSignal` sentinel equivalence at a concrete list. -/
theorem noSelection_sentinel_spec_witness :
    (SelectRelayFirstAvailable
        [{ l2Id := 1, relayCode := 5, rsrp := -80, eligible := true }]
      = defaultRelayInfo ↔
        ([{ l2Id := 1, relayCode := 5, rsrp := -80, eligible := true }]
          : List RelayInfo) = []) :=
  noSelection_sentinel_spec.1
    [{ l2Id := 1, relayCode := 5, rsrp := -80, eligible := true }] (by decide)

/-- C4: `FirstAvailable` returns the first element in discovery order on
every non-empty list and the default-constructed `RelayInfo` ("no
selection") on the empty list; `MaxSignal` returns "no selection" on the
empty list and on a singleton list whose only candidate is ineligible. -/
theorem selectRelayFirstAvailable_spec :
    (∀ (c : RelayInfo) (l : List RelayInfo),
        SelectRelayFirstAvailable (c :: l) = c)
    ∧ SelectRelayFirstAvailable [] = defaultRelayInfo
    ∧ SelectRelayMaxRsrp [] = defaultRelayInfo
    ∧ (∀ c : RelayInfo, c.eligible = false →
        SelectRelayMaxRsrp [c] = defaultRelayInfo) := by
  refine ⟨fun c l => rfl, rfl, rfl, ?_⟩
  intro c hc
  simp [SelectRelayMaxRsrp, SelectRelayMaxRsrpAux, hc]

/-- C4 witness: `MaxSignal` on the singleton ineligible candidate
`{id 1, rsrp -90, ineligible}` returns "no selection". -/
theorem selectRelayFirstAvailable_spec_witness :
    SelectRelayMaxRsrp
        [{ l2Id := 1, relayCode := 5, rsrp := -90, eligible := false }]
      = defaultRelayInfo :=
  selectRelayFirstAvailable_spec.2.2.2
    { l2Id := 1, relayCode := 5, rsrp := -90, eligible := false } rfl

/-- C5: on a non-empty list, `Random::SelectRelay` draws an index in
`[0, length - 1]` from the endpoint's private stream (the next stream
value reduced modulo the length) and returns the candidate at that index,
which is an element of the list; the empty list yields the
default-constructed `RelayInfo` and leaves the stream untouched; and the
selection is a function of the stream state and the input list, so two
runs with the same assigned stream state and the same list return the
same candidate. -/
theorem selectRelayRandom_spec :
    (∀ (s : RngState) (c : RelayInfo) (l : List RelayInfo),
        s.seq s.pos % (c :: l).length < (c :: l).length
        ∧ (SelectRelayRandom s (c :: l)).1
            = (c :: l).getD (s.seq s.pos % (c :: l).length) defaultRelayInfo
        ∧ (SelectRelayRandom s (c :: l)).1 ∈ c :: l
        ∧ (SelectRelayRandom s (c :: l)).2 = { seq := s.seq, pos := s.pos + 1 })
    ∧ (∀ s : RngState, SelectRelayRandom s [] = (defaultRelayInfo, s))
    ∧ (∀ (s1 s2 : RngState) (l1 l2 : List RelayInfo), s1 = s2 → l1 = l2 →
        SelectRelayRandom s1 l1 = SelectRelayRandom s2 l2) := by
  refine ⟨?_, fun s => rfl, ?_⟩
  · intro s c l
    have hlen : (c :: l).length - 1 - 0 + 1 = (c :: l).length := by
      simp
    have hmod : s.seq s.pos % (c :: l).length < (c :: l).length :=
      Nat.mod_lt _ (List.length_pos_of_ne_nil (List.cons_ne_nil c l))
    have hval : (SelectRelayRandom s (c :: l)).1
        = (c :: l).getD (s.seq s.pos % (c :: l).length) defaultRelayInfo := by
      simp [SelectRelayRandom, RngState.getInteger, hlen]
    refine ⟨hmod, hval, ?_, ?_⟩
    · rw [hval, List.getD_eq_getElem _ _ hmod]
      exact List.getElem_mem hmod
    · simp [SelectRelayRandom, RngState.getInteger]
  · intro s1 s2 l1 l2 hs hl
    rw [hs, hl]

/-- C5 witness: a concrete stream state and list; the determinism part of
the theorem applied at equal states and equal lists. -/
theorem selectRelayRandom_spec_witness :
    SelectRelayRandom { seq := fun n => n + 3, pos := 0 }
        [{ l2Id := 1, relayCode := 5, rsrp := -80, eligible := true },
         { l2Id := 2, relayCode := 5, rsrp := -70, eligible := true }]
      = SelectRelayRandom { seq := fun n => n + 3, pos := 0 }
        [{ l2Id := 1, relayCode := 5, rsrp := -80, eligible := true },
         { l2Id := 2, relayCode := 5, rsrp := -70, eligible := true }] :=
  selectRelayRandom_spec.2.2 _ _ _ _ rfl rfl

/-- C6: a requested relay connection with relay service code ≤ 0 fails
with the fatal `InvalidServiceCode` abort synchronously at configuration
time, before any state change and before any `AddDirectLinkConnection`
is scheduled (the error branch produces no effect at all); with any
service code > 0 the check passes and the helper performs its state
changes and schedules exactly one `AddDirectLinkConnection` call on the
remote UE (initiating) and one on the relay UE (target). -/
theorem establishL3Relay_serviceCode_spec :
    ∀ (t remoteL2 remoteIp relayL2 relayIp sc : Nat),
      (sc ≤ 0 →
        EstablishL3UeToNetworkRelayConnection t remoteL2 remoteIp relayL2 relayIp sc
          = Except.error "InvalidServiceCode")
      ∧ (0 < sc →
        EstablishL3UeToNetworkRelayConnection t remoteL2 remoteIp relayL2 relayIp sc
          = Except.ok
            [HelperEffect.setImsi remoteL2,
             HelperEffect.setImsi relayL2,
             HelperEffect.setL2Id remoteL2,
             HelperEffect.setL2Id relayL2,
             HelperEffect.scheduleAddLink t
               { selfL2Id := remoteL2, selfIp := remoteIp, peerL2Id := relayL2,
                 isInitiating := true, relayServiceCode := sc },
             HelperEffect.scheduleAddLink t
               { selfL2Id := relayL2, selfIp := relayIp, peerL2Id := remoteL2,
                 isInitiating := false, relayServiceCode := sc }]) := by
  intro t remoteL2 remoteIp relayL2 relayIp sc
  constructor
  · intro hle
    simp [EstablishL3UeToNetworkRelayConnection, hle]
  · intro hpos
    simp [EstablishL3UeToNetworkRelayConnection, Nat.not_le.mpr hpos]

/-- C6 witness: service code 0 aborts with `InvalidServiceCode`; service
code 5 schedules the two `AddDirectLinkConnection` calls. -/
theorem establishL3Relay_serviceCode_spec_witness :
    EstablishL3UeToNetworkRelayConnection 2 10 70 20 71 0
        = Except.error "InvalidServiceCode"
    ∧ EstablishL3UeToNetworkRelayConnection 2 10 70 20 71 5
        = Except.ok
          [HelperEffect.setImsi 10,
           HelperEffect.setImsi 20,
           HelperEffect.setL2Id 10,
           HelperEffect.setL2Id 20,
           HelperEffect.scheduleAddLink 2
             { selfL2Id := 10, selfIp := 70, peerL2Id := 20,
               isInitiating := true, relayServiceCode := 5 },
           HelperEffect.scheduleAddLink 2
             { selfL2Id := 20, selfIp := 71, peerL2Id := 10,
               isInitiating := false, relayServiceCode := 5 }] :=
  ⟨(establishL3Relay_serviceCode_spec 2 10 70 20 71 0).1 (by decide),
   (establishL3Relay_serviceCode_spec 2 10 70 20 71 5).2 (by decide)⟩

/-- C7: calling `AddDirectLinkConnection` twice for the same peer on the
same endpoint signals `AlreadyExists` on the second call, and the second
call leaves the endpoint's link map — the first link's state included —
entirely unchanged; moreover the first call succeeds whenever no link to
that peer existed beforehand. -/
theorem addDirectLinkConnection_twice_spec :
    ∀ (st : ProseState) (peerId a1 a2 : Nat) (i1 i2 : Bool) (r1 r2 : Nat),
      (((st.addDirectLinkConnection peerId a1 i1 r1).2.addDirectLinkConnection
          peerId a2 i2 r2).1 = AddLinkResult.alreadyExists
        ∧ ((st.addDirectLinkConnection peerId a1 i1 r1).2.addDirectLinkConnection
            peerId a2 i2 r2).2 = (st.addDirectLinkConnection peerId a1 i1 r1).2)
      ∧ (st.links.lookup peerId = none →
          (st.addDirectLinkConnection peerId a1 i1 r1).1 = AddLinkResult.ok) := by
  intro st peerId a1 a2 i1 i2 r1 r2
  rcases hlook : st.links.lookup peerId with _ | link
  · refine ⟨?_, fun _ => ?_⟩
    · have hsnd : (st.addDirectLinkConnection peerId a1 i1 r1).2
          = { links := (peerId,
              { peerId := peerId, localAddress := a1, isInitiating := i1,
                relayServiceCode := r1,
                state := if i1 then LinkState.AwaitingResponse else LinkState.Idle })
              :: st.links } := by
        simp [ProseState.addDirectLinkConnection, hlook]
      rw [hsnd]
      constructor
      · simp [ProseState.addDirectLinkConnection, List.lookup]
      · simp [ProseState.addDirectLinkConnection, List.lookup]
    · simp [ProseState.addDirectLinkConnection, hlook]
  · have hsnd : (st.addDirectLinkConnection peerId a1 i1 r1).2 = st := by
      simp [ProseState.addDirectLinkConnection, hlook]
    refine ⟨?_, fun hnone => ?_⟩
    · rw [hsnd]
      constructor
      · simp [ProseState.addDirectLinkConnection, hlook]
      · simp [ProseState.addDirectLinkConnection, hlook]
    · exact absurd hnone (by simp)

/-- C7 witness: on an endpoint with no links, adding a link to peer 5
succeeds, and the statement's unconditional part applied at that
endpoint. -/
theorem addDirectLinkConnection_twice_spec_witness :
    ((ProseState.mk []).addDirectLinkConnection 5 30 true 3).1
        = AddLinkResult.ok
    ∧ ((((ProseState.mk []).addDirectLinkConnection 5 30 true 3).2.addDirectLinkConnection
          5 31 false 4).1 = AddLinkResult.alreadyExists) :=
  ⟨(addDirectLinkConnection_twice_spec (ProseState.mk []) 5 30 31 true false 3 4).2 rfl,
   (addDirectLinkConnection_twice_spec (ProseState.mk []) 5 30 31 true false 3 4).1.1⟩

/-- C10: when `dstL2Ids` has at least as many elements as `appCodes`,
`StartDiscovery` starts exactly one discovery application per element of
`appCodes` — the i-th application code paired with the i-th destination
L2 id (the zip of the two lists) — and when `dstL2Ids` is shorter the
lockstep iteration dereferences the destination iterator past its end
(undefined behaviour, `none` in the model), so the length condition is a
precondition. -/
theorem startDiscovery_spec :
    ∀ (appCodes dstL2Ids : List Nat),
      (appCodes.length ≤ dstL2Ids.length →
        StartDiscovery appCodes dstL2Ids = some (appCodes.zip dstL2Ids)
        ∧ (appCodes.zip dstL2Ids).length = appCodes.length
        ∧ ∀ i : Nat, i < appCodes.length →
            (appCodes.zip dstL2Ids).getD i (0, 0)
              = (appCodes.getD i 0, dstL2Ids.getD i 0))
      ∧ (dstL2Ids.length < appCodes.length →
        StartDiscovery appCodes dstL2Ids = none) := by
  intro appCodes
  induction appCodes with
  | nil =>
    intro dstL2Ids
    refine ⟨fun _ => ⟨rfl, rfl, ?_⟩, fun h => absurd h (by simp)⟩
    intro i hi
    exact absurd hi (Nat.not_lt_zero i)
  | cons a as ih =>
    intro dstL2Ids
    cases dstL2Ids with
    | nil =>
      refine ⟨fun h => absurd h (by simp), fun _ => rfl⟩
    | cons d ds =>
      constructor
      · intro hle
        have hle' : as.length ≤ ds.length := by
          simpa using hle
        rcases (ih ds).1 hle' with ⟨hsome, hlen, hidx⟩
        refine ⟨?_, ?_, ?_⟩
        · simp [StartDiscovery, hsome]
        · simp [hlen]
        · intro i hi
          cases i with
          | zero => rfl
          | succ i' =>
            have hi' : i' < as.length := by simpa using hi
            simpa using hidx i' hi'
      · intro hlt
        have hlt' : ds.length < as.length := by simpa using hlt
        have hnone : StartDiscovery as ds = none := (ih ds).2 hlt'
        simp [StartDiscovery, hnone]

/-- C10 witness: three application codes with three destination ids start
exactly three applications, pairing positionally; with only one
destination id for two codes the iteration runs past the end. -/
theorem startDiscovery_spec_witness :
    StartDiscovery [1, 2, 3] [100, 200, 300]
        = some [(1, 100), (2, 200), (3, 300)]
    ∧ StartDiscovery [1, 2] [100] = none :=
  ⟨((startDiscovery_spec [1, 2, 3] [100, 200, 300]).1 (by decide)).1,
   (startDiscovery_spec [1, 2] [100]).2 (by decide)⟩

end NrProse
